import Mathlib

/-!
# Verification of `sim/pid_simulation.py`

Shallow embedding of the simulation pipeline of the
`embedded-motor-pid-controller` repository, together with proofs about it.

Modelling conventions:
* Numeric values are modelled by `ℚ` (exact values; the Python code uses
  IEEE doubles, whose rounding is not at issue in any of the properties
  considered here — all concrete data are small decimals).
* A log file is modelled as the list of its non-blank, non-comment lines
  (`np.loadtxt` discards blank lines and `#`-comments before any other
  processing), each line being the list of its comma-separated fields.
* A field is abstracted to either a field that parses as a number
  (`Cell.num q`) or one that does not (`Cell.text`), since the only thing
  the loader does with a field is attempt a float conversion.
* The effectful pipeline (`build_firmware`, `run_firmware_and_capture_log`,
  `main`) is embedded as explicit state passing over a `World` record that
  holds the file system and process-invocation facts the code touches.
-/

/-- One comma-separated field of a log line: either a field that parses as
a float (carrying its numeric value) or one that does not. -/
inductive Cell where
  | num (q : ℚ)
  | text
deriving DecidableEq

/-- `true` iff the field parses as a number. -/
def Cell.isNum : Cell → Bool
  | .num _ => true
  | .text => false

/-- One line of the log file: its list of comma-separated fields. -/
abbrev Row := List Cell

/-- The parsed log series: the four column vectors extracted by `load_log`
(`step = data[:, 0]`, `setpoint = data[:, 1]`, `speed = data[:, 2]`,
`control = data[:, 3]`). -/
structure LogSeries where
  step : List ℚ
  setpoint : List ℚ
  speed : List ℚ
  control : List ℚ
deriving DecidableEq

/-- Errors raised by `load_log` (all surface as Python `ValueError`, but
from two distinct raise sites: the `np.loadtxt` parse wrapper and the
explicit shape re-check). -/
inductive LogError where
  | formatError
  | shapeError
deriving DecidableEq

/-- Numeric parse of one field (`float(...)` in the loadtxt row loop). -/
def parseCell : Cell → Option ℚ
  | .num q => some q
  | .text => none

/-- Numeric parse of one line: succeeds iff every field parses. -/
def parseRow : Row → Option (List ℚ)
  | [] => some []
  | c :: cs => (parseCell c).bind fun q => (parseRow cs).map (q :: ·)

/-- Row loop of `np.loadtxt`: parse every line, failing on the first field
that is not numeric. -/
def parseTable : List Row → Option (List (List ℚ))
  | [] => some []
  | r :: rs => (parseRow r).bind fun v => (parseTable rs).map (v :: ·)

/-- Column-count consistency check of `np.loadtxt`: every row must have as
many fields as the first row. -/
def consistentWidths : List (List ℚ) → Bool
  | [] => true
  | r :: rs => rs.all (fun x => x.length = r.length)

/-- `np.loadtxt` on a given list of (already header-skipped) lines:
`ValueError` (here `LogError.formatError`) on a non-numeric field or an
inconsistent column count, otherwise the numeric table. -/
def np_loadtxt (rows : List Row) : Except LogError (List (List ℚ)) :=
  match parseTable rows with
  | none => .error .formatError
  | some t => if consistentWidths t then .ok t else .error .formatError

/-- `ndim` of the numpy array returned by `np.loadtxt`: loadtxt squeezes
the result, so zero data rows give shape `(0,)`, a single row gives shape
`(m,)` (or a scalar when `m = 1`), a single column gives shape `(k,)`, and
only `k ≥ 2` rows of `m ≥ 2` fields give a two-dimensional `(k, m)` array. -/
def arrNdim (t : List (List ℚ)) : Nat :=
  match t with
  | [] => 1
  | [r] => if r.length = 1 then 0 else 1
  | r :: _ :: _ => if r.length = 1 then 1 else 2

/-- `shape[1]` of the (consistent-width) table: the width of its first row. -/
def arrCols (t : List (List ℚ)) : Nat := (t.headD []).length

/-- Column extraction `data[:, i]` for `i = 0..3` (`load_log` lines
250–253); only reached when every row has exactly four entries. -/
def splitColumns (t : List (List ℚ)) : LogSeries where
  step := t.map (fun r => r.getD 0 0)
  setpoint := t.map (fun r => r.getD 1 0)
  speed := t.map (fun r => r.getD 2 0)
  control := t.map (fun r => r.getD 3 0)

/-- `load_log` (src/sim/pid_simulation.py lines 196–262), given the lines
of the log file: `np.loadtxt(LOG_FILE, delimiter=",", skiprows=1)` — the
first line is skipped unconditionally — followed by the explicit shape
re-check `data.ndim != 2 or data.shape[1] != 4`, then column extraction. -/
def load_log (lines : List Row) : Except LogError LogSeries :=
  match np_loadtxt (lines.drop 1) with
  | .error e => .error e
  | .ok t =>
    if arrNdim t = 2 ∧ arrCols t = 4 then .ok (splitColumns t)
    else .error .shapeError

/-- A data line of the log format for one record. -/
def recordRow (a b c d : ℚ) : Row := [.num a, .num b, .num c, .num d]

/-- The header line `step,setpoint,measurement,output`: four fields, none
of which parses as a number. -/
def headerRow : Row := [.text, .text, .text, .text]

/-- The data lines written for a series (one record per line, four
comma-separated numeric fields, in series order). -/
def seriesRows : List ℚ → List ℚ → List ℚ → List ℚ → List Row
  | a :: as, b :: bs, c :: cs, d :: ds =>
      recordRow a b c d :: seriesRows as bs cs ds
  | _, _, _, _ => []

/-- Writing a `LogSeries` to the log format, with or without the single
optional header line. -/
def writeSeries (s : LogSeries) (withHeader : Bool) : List Row :=
  let rows := seriesRows s.step s.setpoint s.speed s.control
  if withHeader then headerRow :: rows else rows

/-- `true` iff the list is strictly increasing. -/
def strictIncr : List ℚ → Bool
  | [] => true
  | [_] => true
  | a :: b :: rest => decide (a < b) && strictIncr (b :: rest)

/-- Well-formedness of a `LogSeries` per the data model: the four columns
have equal length, the series is non-empty, and the step indexes are
strictly increasing non-negative integers. -/
def wellFormedSeries (s : LogSeries) : Prop :=
  s.step ≠ [] ∧
  s.setpoint.length = s.step.length ∧
  s.speed.length = s.step.length ∧
  s.control.length = s.step.length ∧
  strictIncr s.step = true ∧
  ∀ q ∈ s.step, 0 ≤ q ∧ q.den = 1

instance : DecidablePred wellFormedSeries := fun s =>
  inferInstanceAs (Decidable (s.step ≠ [] ∧
    s.setpoint.length = s.step.length ∧
    s.speed.length = s.step.length ∧
    s.control.length = s.step.length ∧
    strictIncr s.step = true ∧
    ∀ q ∈ s.step, 0 ≤ q ∧ q.den = 1))

example : load_log [headerRow, recordRow 0 3 0 1, recordRow 1 3 1 0] =
    .ok ⟨[0, 1], [3, 3], [0, 1], [1, 0]⟩ := by rfl

example : load_log [recordRow 0 3 0 1, recordRow 1 3 1 0, recordRow 2 3 2 0] =
    .ok ⟨[1, 2], [3, 3], [1, 2], [0, 0]⟩ := by rfl

example : load_log [] = .error .shapeError := by rfl

example : load_log [headerRow, recordRow 0 3 0 1] = .error .shapeError := by rfl

/-! ## Analyzer (the metric computations of `plot_response`) -/

/-- `SAMPLE_TIME_SEC = 0.01` (10 ms control loop period). -/
def SAMPLE_TIME_SEC : ℚ := 1 / 100

/-- Value of a numpy floating-point expression: a finite value or one of
the IEEE non-finite outcomes. Division of a non-zero value by zero yields
an infinity (numpy emits a `RuntimeWarning`, not an exception). -/
inductive NpVal where
  | fin (q : ℚ)
  | inf
  | ninf
  | nan
deriving DecidableEq

/-- `arr.max()` over a non-empty array (the model returns `0` on the empty
list, on which numpy would raise; every property below assumes the list is
non-empty). -/
def npMax : List ℚ → ℚ
  | [] => 0
  | x :: xs => xs.foldl max x

/-- `arr.mean()` over a non-empty array. -/
def npMean (l : List ℚ) : ℚ := l.sum / l.length

/-- The numeric performance metrics computed inside `plot_response`
(lines 326–330 and 357–360); the standard deviation is omitted as no
property concerns it. -/
structure Metrics where
  finalSpeed : ℚ
  finalError : ℚ
  overshoot : NpVal
  controlMean : ℚ
  saturationTime : ℚ
deriving DecidableEq

/-- The metric computations of `plot_response` (rendering is out of
scope). `final_speed = speed[-1]`, `final_error = setpoint[-1] -
final_speed`, `overshoot = (speed.max() - setpoint[-1]) / setpoint[-1] *
100 if speed.max() > setpoint[-1] else 0` — when `setpoint[-1] = 0` and
the guard is taken, the numerator is positive and the IEEE division by
`+0.0` yields `+inf` — `control_mean = control.mean()`, and
`saturation_time = np.sum(np.abs(control) >= 0.99) * SAMPLE_TIME_SEC`. -/
def plot_response_metrics (setpoint speed control : List ℚ) : Metrics :=
  let final_speed := speed.getLastD 0
  let sp := setpoint.getLastD 0
  let m := npMax speed
  { finalSpeed := final_speed
    finalError := sp - final_speed
    overshoot :=
      if sp < m then
        if sp = 0 then .inf else .fin ((m - sp) / sp * 100)
      else .fin 0
    controlMean := npMean control
    saturationTime :=
      ((control.countP (fun c => 99 / 100 ≤ |c|)) : ℚ) * SAMPLE_TIME_SEC }

/-! ## Pipeline state model

`World` records the facts of the environment the script touches: whether
the executable artifact exists, the outcome the toolchain and the firmware
process would produce, the contents of `sim/log.csv`, and invocation
counters for each external effect. -/

/-- Environment and effect state of one pipeline run. -/
structure World where
  /-- `EXE_PATH.exists()` -/
  artifactExists : Bool
  /-- return code `gcc` would produce -/
  buildExit : Nat
  /-- diagnostic text `gcc` would produce -/
  buildErr : String
  /-- return code the firmware process would produce -/
  simExit : Nat
  /-- lines the firmware process would write to stdout -/
  simOut : List Row
  /-- text the firmware process would write to stderr -/
  simErr : String
  /-- contents of `sim/log.csv` (`none` = file absent) -/
  logFile : Option (List Row)
  /-- number of toolchain (`gcc`) invocations so far -/
  toolchainRuns : Nat
  /-- number of executions of the artifact so far -/
  artifactRuns : Nat
  /-- number of `load_log` invocations so far -/
  loadCalls : Nat
  /-- number of `plot_response` invocations so far -/
  plotCalls : Nat
deriving DecidableEq

/-- The typed failures of the pipeline stages (each Python raise site). -/
inductive PipeError where
  | buildError (code : Nat) (diag : String)
  | artifactMissing
  | executionError (diag : String)
  | logNotFound
  | logError (e : LogError)
deriving DecidableEq

/-- `build_firmware` (lines 75–130): invoke the toolchain; on non-zero
exit raise `SystemExit` carrying the diagnostics, otherwise the artifact
now exists at `EXE_PATH`. -/
def build_firmware (w : World) : World × Option PipeError :=
  let w1 := { w with toolchainRuns := w.toolchainRuns + 1 }
  if w1.buildExit ≠ 0 then (w1, some (.buildError w1.buildExit w1.buildErr))
  else ({ w1 with artifactExists := true }, none)

/-- `run_firmware_and_capture_log` (lines 136–190): raise
`FileNotFoundError` if `EXE_PATH` does not exist, *before* opening the log
file or spawning the process; otherwise open `sim/log.csv` for writing
(truncating it), run the artifact with stdout redirected into it, and on
non-zero exit raise `SystemExit` after printing the captured stderr — the
written log file is not deleted. -/
def run_firmware_and_capture_log (w : World) : World × Option PipeError :=
  if w.artifactExists = false then (w, some .artifactMissing)
  else
    let w1 := { w with logFile := some w.simOut,
                       artifactRuns := w.artifactRuns + 1 }
    if w1.simExit ≠ 0 then (w1, some (.executionError w1.simErr))
    else (w1, none)

/-- The `load_log` call of `main`: read `sim/log.csv`
(`FileNotFoundError` if absent) and parse it with `load_log`. -/
def load_log_stage (w : World) : World × Except PipeError LogSeries :=
  let w1 := { w with loadCalls := w.loadCalls + 1 }
  match w1.logFile with
  | none => (w1, .error .logNotFound)
  | some lines =>
    match load_log lines with
    | .error e => (w1, .error (.logError e))
    | .ok s => (w1, .ok s)

/-- The `plot_response` call of `main`: compute the metrics and render
(rendering itself is out of scope; the call is recorded). -/
def plot_response_stage (w : World) (s : LogSeries) :
    World × Metrics × Option PipeError :=
  ({ w with plotCalls := w.plotCalls + 1 },
   plot_response_metrics s.setpoint s.speed s.control, none)

/-- `main` (lines 395–450), named `main_workflow` here since Lean reserves `main`: the four stages in sequence; any raise
propagates out of the `try` block and aborts the remaining stages. -/
def main_workflow (w : World) : World × Option PipeError :=
  match build_firmware w with
  | (w1, some e) => (w1, some e)
  | (w1, none) =>
    match run_firmware_and_capture_log w1 with
    | (w2, some e) => (w2, some e)
    | (w2, none) =>
      match load_log_stage w2 with
      | (w3, .error e) => (w3, some e)
      | (w3, .ok s) =>
        match plot_response_stage w3 s with
        | (w4, _, e) => (w4, e)

/-! ## Auxiliary definitions for the statements -/

/-- The numeric table corresponding to the data lines written for a
series (the image of `seriesRows` under the row parse). -/
def numTable : List ℚ → List ℚ → List ℚ → List ℚ → List (List ℚ)
  | a :: as, b :: bs, c :: cs, d :: ds => [a, b, c, d] :: numTable as bs cs ds
  | _, _, _, _ => []

/-- A malformed line: wrong field count, or a field that does not parse
as a number. -/
def badRow (r : Row) : Bool := decide (r.length ≠ 4) || r.any (fun c => !c.isNum)

/-- A headerless log file of three numeric records (steps 0, 1, 2). -/
def headerlessFile : List Row :=
  [recordRow 0 3 0 1, recordRow 1 3 1 0, recordRow 2 3 2 0]

/-- A two-record well-formed series. -/
def rtSeries : LogSeries where
  step := [0, 1]
  setpoint := [3, 3]
  speed := [0, 3]
  control := [1, 0]

/-- A three-record well-formed series. -/
def rtSeries3 : LogSeries where
  step := [0, 1, 2]
  setpoint := [3, 3, 3]
  speed := [0, 1, 2]
  control := [1, 0, 0]

/-- A headerless log file whose first line has only three fields while
the remaining data lines have four. -/
def wrongCountFile : List Row :=
  [[.num 1, .num 2, .num 3], recordRow 0 3 0 1, recordRow 1 3 1 0]

/-- A log file whose third line has a non-numeric field. -/
def badFieldFile : List Row :=
  [headerRow, recordRow 0 3 0 1, [.num 1, .text, .num 1, .num 0]]

/-- A world in which the artifact is absent. -/
def worldNoArtifact : World where
  artifactExists := false
  buildExit := 0
  buildErr := ""
  simExit := 0
  simOut := []
  simErr := ""
  logFile := none
  toolchainRuns := 0
  artifactRuns := 0
  loadCalls := 0
  plotCalls := 0

/-- A world in which the artifact exists but its execution exits with
status 2 after having written one record to stdout. -/
def worldSimFails : World where
  artifactExists := true
  buildExit := 0
  buildErr := ""
  simExit := 2
  simOut := [headerRow, recordRow 0 3 0 1]
  simErr := "simulation diverged"
  logFile := some []
  toolchainRuns := 0
  artifactRuns := 0
  loadCalls := 0
  plotCalls := 0

/-- A world in which the toolchain fails with exit code 1. -/
def worldBuildFails : World where
  artifactExists := false
  buildExit := 1
  buildErr := "main.c:1: error"
  simExit := 0
  simOut := []
  simErr := ""
  logFile := none
  toolchainRuns := 0
  artifactRuns := 0
  loadCalls := 0
  plotCalls := 0

/-- A two-record log file with header, and its parse. -/
def twoRecordFile : List Row :=
  [headerRow, recordRow 0 3 0 1, recordRow 1 3 1 0]

/-- The series parsed from `twoRecordFile`. -/
def twoRecordSeries : LogSeries where
  step := [0, 1]
  setpoint := [3, 3]
  speed := [0, 1]
  control := [1, 0]

/-! ## Helper lemmas about the loader -/

lemma parseRow_length {r : Row} {v : List ℚ} (h : parseRow r = some v) :
    v.length = r.length := by
  induction r generalizing v with
  | nil =>
    simp only [parseRow, Option.some.injEq] at h
    subst h; rfl
  | cons c cs ih =>
    simp only [parseRow, Option.bind_eq_some, Option.map_eq_some'] at h
    obtain ⟨q, _, qs, hqs, hv⟩ := h
    subst hv
    simp [ih hqs]

lemma parseRow_isNum {r : Row} {v : List ℚ} (h : parseRow r = some v) :
    ∀ c ∈ r, c.isNum = true := by
  induction r generalizing v with
  | nil => simp
  | cons c cs ih =>
    simp only [parseRow, Option.bind_eq_some, Option.map_eq_some'] at h
    obtain ⟨q, hq, qs, hqs, _⟩ := h
    intro x hx
    rcases List.mem_cons.mp hx with hx | hx
    · subst hx
      cases x with
      | num _ => rfl
      | text => simp [parseCell] at hq
    · exact ih hqs x hx

lemma parseTable_length {rows : List Row} {t : List (List ℚ)}
    (h : parseTable rows = some t) : t.length = rows.length := by
  induction rows generalizing t with
  | nil =>
    simp only [parseTable, Option.some.injEq] at h
    subst h; rfl
  | cons r rs ih =>
    simp only [parseTable, Option.bind_eq_some, Option.map_eq_some'] at h
    obtain ⟨v, _, t', ht', hv⟩ := h
    subst hv
    simp [ih ht']

lemma parseTable_getElem? {rows : List Row} {t : List (List ℚ)}
    (h : parseTable rows = some t) :
    ∀ i : Nat, t[i]? = (rows[i]?).bind parseRow := by
  induction rows generalizing t with
  | nil =>
    simp only [parseTable, Option.some.injEq] at h
    subst h; simp
  | cons r rs ih =>
    simp only [parseTable, Option.bind_eq_some, Option.map_eq_some'] at h
    obtain ⟨v, hv, t', ht', hvt⟩ := h
    subst hvt
    intro i
    cases i with
    | zero => simp [hv.symm]
    | succ n => simp [ih ht' n]

lemma parseTable_mem {rows : List Row} {t : List (List ℚ)} {r : Row}
    (h : parseTable rows = some t) (hr : r ∈ rows) :
    ∃ v, parseRow r = some v ∧ v ∈ t := by
  induction rows generalizing t with
  | nil => cases hr
  | cons r0 rs ih =>
    simp only [parseTable, Option.bind_eq_some, Option.map_eq_some'] at h
    obtain ⟨v, hv, t', ht', hvt⟩ := h
    subst hvt
    rcases List.mem_cons.mp hr with hr0 | hr0
    · subst hr0
      exact ⟨v, hv, List.mem_cons_self _ _⟩
    · obtain ⟨v', hv', hvm⟩ := ih ht' hr0
      exact ⟨v', hv', List.mem_cons_of_mem _ hvm⟩

lemma consistentWidths_of_len4 {t : List (List ℚ)}
    (h : ∀ r ∈ t, r.length = 4) : consistentWidths t = true := by
  cases t with
  | nil => rfl
  | cons r rs =>
    simp only [consistentWidths, List.all_eq_true, decide_eq_true_eq]
    intro x hx
    rw [h x (List.mem_cons_of_mem _ hx), h r (List.mem_cons_self _ _)]

lemma arr_shape_of_len4 {t : List (List ℚ)} (h2 : 2 ≤ t.length)
    (h4 : ∀ r ∈ t, r.length = 4) : arrNdim t = 2 ∧ arrCols t = 4 := by
  match t, h2 with
  | r :: r' :: rest, _ =>
    have hr : r.length = 4 := h4 r (List.mem_cons_self _ _)
    constructor
    · simp [arrNdim, hr]
    · simp [arrCols, hr]

lemma list_len4 {v : List ℚ} (h : v.length = 4) :
    ∃ a b c d, v = [a, b, c, d] := by
  match v, h with
  | [a, b, c, d], _ => exact ⟨a, b, c, d, rfl⟩

lemma table_rows_len4 {t : List (List ℚ)} (hc : consistentWidths t = true)
    (hnd : arrNdim t = 2) (hcl : arrCols t = 4) : ∀ r ∈ t, r.length = 4 := by
  match t with
  | [] => simp [arrNdim] at hnd
  | [r] =>
    simp only [arrNdim] at hnd
    split at hnd <;> omega
  | r :: r' :: rest =>
    have hr : r.length = 4 := by simpa [arrCols] using hcl
    intro x hx
    rcases List.mem_cons.mp hx with hx | hx
    · subst hx; exact hr
    · have hall : ∀ x ∈ r' :: rest, x.length = r.length := by
        simpa [consistentWidths, List.all_eq_true] using hc
      rw [hall x hx, hr]

lemma table_two_rows {t : List (List ℚ)} (hnd : arrNdim t = 2) :
    2 ≤ t.length := by
  match t with
  | [] => simp [arrNdim] at hnd
  | [r] =>
    simp only [arrNdim] at hnd
    split at hnd <;> omega
  | r :: r' :: rest => simp

lemma load_log_ok_facts {lines : List Row} {s : LogSeries}
    (h : load_log lines = .ok s) :
    ∃ t, parseTable (lines.drop 1) = some t ∧
      consistentWidths t = true ∧ 2 ≤ t.length ∧
      (∀ r ∈ t, r.length = 4) ∧ s = splitColumns t := by
  unfold load_log at h
  split at h
  · cases h
  case _ t heq =>
    unfold np_loadtxt at heq
    split at heq
    · cases heq
    case _ t' hpt =>
      split at heq
      case isTrue hc =>
        cases heq
        split at h
        case isTrue hcond =>
          cases h
          exact ⟨t, hpt, hc, table_two_rows hcond.1,
            table_rows_len4 hc hcond.1 hcond.2, rfl⟩
        case isFalse => cases h
      case isFalse => cases heq

/-! ## Helper lemmas about the writer -/

lemma parseTable_seriesRows (as bs cs ds : List ℚ) :
    parseTable (seriesRows as bs cs ds) = some (numTable as bs cs ds) := by
  induction as generalizing bs cs ds with
  | nil => rfl
  | cons a as ih =>
    cases bs with
    | nil => rfl
    | cons b bs =>
      cases cs with
      | nil => rfl
      | cons c cs =>
        cases ds with
        | nil => rfl
        | cons d ds =>
          simp [seriesRows, numTable, parseTable, parseRow, parseCell,
            recordRow, ih]

lemma numTable_len4 (as bs cs ds : List ℚ) :
    ∀ r ∈ numTable as bs cs ds, r.length = 4 := by
  induction as generalizing bs cs ds with
  | nil => intro r hr; cases hr
  | cons a as ih =>
    cases bs with
    | nil => intro r hr; cases hr
    | cons b bs =>
      cases cs with
      | nil => intro r hr; cases hr
      | cons c cs =>
        cases ds with
        | nil => intro r hr; cases hr
        | cons d ds =>
          intro r hr
          rcases List.mem_cons.mp hr with h | h
          · subst h; rfl
          · exact ih bs cs ds r h

lemma numTable_length {as bs cs ds : List ℚ} (hb : bs.length = as.length)
    (hc : cs.length = as.length) (hd : ds.length = as.length) :
    (numTable as bs cs ds).length = as.length := by
  induction as generalizing bs cs ds with
  | nil => rfl
  | cons a as ih =>
    cases bs with
    | nil => simp at hb
    | cons b bs =>
      cases cs with
      | nil => simp at hc
      | cons c cs =>
        cases ds with
        | nil => simp at hd
        | cons d ds =>
          simp only [numTable, List.length_cons]
          rw [ih (by simpa using hb) (by simpa using hc) (by simpa using hd)]

lemma splitColumns_numTable {as bs cs ds : List ℚ}
    (hb : bs.length = as.length) (hc : cs.length = as.length)
    (hd : ds.length = as.length) :
    splitColumns (numTable as bs cs ds) = ⟨as, bs, cs, ds⟩ := by
  induction as generalizing bs cs ds with
  | nil =>
    obtain rfl : bs = [] := List.length_eq_zero.mp hb
    obtain rfl : cs = [] := List.length_eq_zero.mp hc
    obtain rfl : ds = [] := List.length_eq_zero.mp hd
    rfl
  | cons a as ih =>
    cases bs with
    | nil => simp at hb
    | cons b bs =>
      cases cs with
      | nil => simp at hc
      | cons c cs =>
        cases ds with
        | nil => simp at hd
        | cons d ds =>
          have htail := ih (by simpa using hb) (by simpa using hc)
            (by simpa using hd)
          simp only [splitColumns, LogSeries.mk.injEq] at htail
          simp only [numTable, splitColumns, List.map_cons,
            LogSeries.mk.injEq, List.cons.injEq]
          exact ⟨⟨rfl, htail.1⟩, ⟨rfl, htail.2.1⟩, ⟨rfl, htail.2.2.1⟩,
            ⟨rfl, htail.2.2.2⟩⟩

/-! ## Claim theorems -/

/-- C1 (amended): `load_log` skips exactly one leading line unconditionally
— the skipped line is never inspected, so its content (header-like or a
numeric data record) cannot influence the result. -/
theorem load_log_skips_first_row_unconditionally (r₁ r₂ : Row)
    (rest : List Row) : load_log (r₁ :: rest) = load_log (r₂ :: rest) := rfl

/-- C1 counterexample: on a headerless file whose first line is the
numeric data record `0,3,0,1`, the returned series starts at step 1 — the
first record was skipped even though it parses as numbers, contradicting
the claimed parse-success-means-kept auto-detection. -/
theorem load_log_headerless_drops_first_record :
    ∃ s, load_log headerlessFile = .ok s ∧ (0 : ℚ) ∉ s.step :=
  ⟨⟨[1, 2], [3, 3], [1, 2], [0, 0]⟩, rfl, by decide⟩

/-- C2 (amended): writing a well-formed series of at least two records
with a header line, then re-parsing with `load_log`, recovers the series
element-wise. -/
theorem load_log_writeSeries_roundtrip (s : LogSeries)
    (hwf : wellFormedSeries s) (h2 : 2 ≤ s.step.length) :
    load_log (writeSeries s true) = .ok s := by
  obtain ⟨hne, hsp, hsd, hct, _, _⟩ := hwf
  obtain ⟨st, sp, sd, ct⟩ := s
  simp only at hsp hsd hct h2
  have hpt := parseTable_seriesRows st sp sd ct
  have h4 := numTable_len4 st sp sd ct
  have hcw := consistentWidths_of_len4 h4
  have hlen : (numTable st sp sd ct).length = st.length :=
    numTable_length hsp hsd hct
  have hshape := arr_shape_of_len4 (by rw [hlen]; exact h2) h4
  have hsplit := splitColumns_numTable hsp hsd hct
  show load_log (writeSeries ⟨st, sp, sd, ct⟩ true) = .ok ⟨st, sp, sd, ct⟩
  unfold writeSeries load_log np_loadtxt
  simp only [if_true]
  rw [List.drop_one, List.tail_cons, hpt]
  simp only [hcw, if_true, hshape.1, hshape.2, and_self, hsplit]

/-- C2 counterexample: the well-formed three-record series `rtSeries3`,
written *without* a header, re-parses to a different series (its first
record is lost to the unconditional skip). -/
theorem writeSeries_no_header_breaks_roundtrip :
    wellFormedSeries rtSeries3 ∧
    load_log (writeSeries rtSeries3 false) =
      .ok ⟨[1, 2], [3, 3], [1, 2], [0, 0]⟩ ∧
    (⟨[1, 2], [3, 3], [1, 2], [0, 0]⟩ : LogSeries) ≠ rtSeries3 :=
  ⟨by decide, rfl, by decide⟩

/-- C2 witness: the round-trip theorem applied to the concrete two-record
series `rtSeries`. -/
theorem load_log_writeSeries_roundtrip_witness :
    wellFormedSeries rtSeries ∧ 2 ≤ rtSeries.step.length ∧
    load_log (writeSeries rtSeries true) = .ok rtSeries :=
  ⟨by decide, by decide,
    load_log_writeSeries_roundtrip rtSeries (by decide) (by decide)⟩

/-- C3 (amended): when the final setpoint is 0 the analysis does not
raise and runs to completion, but the overshoot is reported as the number
0 when `max(measured) ≤ 0` and as the IEEE infinity produced by the
division by zero when `max(measured) > 0` — never as an "undefined"
label. -/
theorem overshoot_zero_setpoint_no_raise (setpoint speed control : List ℚ)
    (hs : speed ≠ []) (h0 : setpoint.getLastD 0 = 0) :
    (plot_response_metrics setpoint speed control).overshoot =
      (if 0 < npMax speed then NpVal.inf else NpVal.fin 0) := by
  simp only [plot_response_metrics, h0]
  by_cases hm : 0 < npMax speed <;> simp [hm]

/-- C3 counterexample: with `setpoint = [0, 0]` and `measured = [0, 1]`
the overshoot expression divides by zero and yields `+inf`, which is a
numeric report, not the claimed "undefined"; in particular it is distinct
from every finite value. -/
theorem overshoot_zero_setpoint_yields_inf :
    (plot_response_metrics [0, 0] [0, 1] [0, 0]).overshoot = NpVal.inf ∧
    ∀ q : ℚ, NpVal.inf ≠ NpVal.fin q :=
  ⟨by norm_num [plot_response_metrics, npMax], fun _ h => NpVal.noConfusion h⟩

/-- C3 witness: the amended statement applied at `setpoint = [0, 0]`,
`measured = [0, 1]`. -/
theorem overshoot_zero_setpoint_no_raise_witness :
    ([0, 1] : List ℚ) ≠ [] ∧ ([0, 0] : List ℚ).getLastD 0 = 0 ∧
    (plot_response_metrics [0, 0] [0, 1] [0, 0]).overshoot =
      (if 0 < npMax [0, 1] then NpVal.inf else NpVal.fin 0) :=
  ⟨by decide, by decide,
    overshoot_zero_setpoint_no_raise [0, 0] [0, 1] [0, 0] (by decide)
      (by decide)⟩

/-- C4 (amended): for a *positive* final setpoint the computed overshoot
equals `max(0, (max(measured) - setpoint[-1]) / setpoint[-1] * 100)`; for
a negative final setpoint the code can report a negative overshoot, so
the claim's "for every `setpoint[-1] ≠ 0`" does not hold. -/
theorem overshoot_clamped_formula_pos_setpoint
    (setpoint speed control : List ℚ) (hs : speed ≠ [])
    (hsp : 0 < setpoint.getLastD 0) :
    (plot_response_metrics setpoint speed control).overshoot =
      NpVal.fin (max 0 ((npMax speed - setpoint.getLastD 0) /
        setpoint.getLastD 0 * 100)) := by
  simp only [plot_response_metrics]
  set sp := setpoint.getLastD 0
  set m := npMax speed
  by_cases h : sp < m
  · rw [if_pos h, if_neg (ne_of_gt hsp)]
    have hpos : 0 < (m - sp) / sp * 100 :=
      mul_pos (div_pos (sub_pos.mpr h) hsp) (by norm_num)
    rw [max_eq_right hpos.le]
  · rw [if_neg h]
    have h2 : (m - sp) / sp ≤ 0 :=
      div_nonpos_iff.mpr (Or.inr ⟨sub_nonpos.mpr (not_lt.mp h), hsp.le⟩)
    have hnp : (m - sp) / sp * 100 ≤ 0 := by nlinarith
    rw [max_eq_left hnp]

/-- C4 counterexample: with `setpoint[-1] = -2 ≠ 0` and
`max(measured) = -1` the code reports overshoot `-50`, while the claimed
formula `max(0, ·)` gives `0`. -/
theorem overshoot_negative_setpoint_not_clamped :
    (plot_response_metrics [-2] [-1] []).overshoot = NpVal.fin (-50) ∧
    NpVal.fin (-50) ≠ NpVal.fin (max 0 ((npMax [-1] -
      ([-2] : List ℚ).getLastD 0) / ([-2] : List ℚ).getLastD 0 * 100)) :=
  ⟨by norm_num [plot_response_metrics, npMax], by norm_num [npMax]⟩

/-- C4 witness: the amended statement at `setpoint[-1] = 3.0`,
`max(measured) = 3.3`, where the formula evaluates to `10.0`%. -/
theorem overshoot_clamped_formula_pos_setpoint_witness :
    ([33/10] : List ℚ) ≠ [] ∧ (0 : ℚ) < ([3] : List ℚ).getLastD 0 ∧
    (plot_response_metrics [3] [33/10] []).overshoot =
      NpVal.fin (max 0 ((npMax [33/10] - ([3] : List ℚ).getLastD 0) /
        ([3] : List ℚ).getLastD 0 * 100)) ∧
    NpVal.fin (max 0 ((npMax [33/10] - ([3] : List ℚ).getLastD 0) /
      ([3] : List ℚ).getLastD 0 * 100)) = NpVal.fin 10 :=
  ⟨by simp, by norm_num [List.getLastD],
    overshoot_clamped_formula_pos_setpoint [3] [33/10] [] (by simp)
      (by norm_num [List.getLastD]), by norm_num [npMax]⟩

/-- C5: on the concrete series `setpoint=[3,3,3,3]`,
`measured=[0,1.5,2.7,3.0]`, `control=[1.0,0.6,0.2,0.0]` the analysis
computes final value 3.0, steady-state error 0.0, overshoot 0%, control
mean 0.45 and saturation time 0.01 s (one sample at `|control| ≥ 0.99`
times the 0.01 s sample period). -/
theorem plot_response_metrics_concrete :
    plot_response_metrics [3, 3, 3, 3] [0, 3/2, 27/10, 3]
        [1, 3/5, 1/5, 0] =
      { finalSpeed := 3, finalError := 0, overshoot := .fin 0,
        controlMean := 9/20, saturationTime := 1/100 } := by
  norm_num [plot_response_metrics, npMax, npMean, SAMPLE_TIME_SEC,
    List.countP, List.countP.go, abs_of_nonneg, Metrics.mk.injEq]

/-- C6: when the artifact does not exist, the runner fails with the
artifact-missing error and the state is completely unchanged: the log
file is not written and the artifact is not executed. -/
theorem runner_fails_before_execution_when_artifact_missing (w : World)
    (h : w.artifactExists = false) :
    run_firmware_and_capture_log w = (w, some PipeError.artifactMissing) := by
  simp [run_firmware_and_capture_log, h]

/-- C6 witness: the precondition theorem at a concrete world with no
artifact. -/
theorem runner_fails_before_execution_when_artifact_missing_witness :
    worldNoArtifact.artifactExists = false ∧
    run_firmware_and_capture_log worldNoArtifact =
      (worldNoArtifact, some PipeError.artifactMissing) :=
  ⟨rfl, runner_fails_before_execution_when_artifact_missing worldNoArtifact
    rfl⟩

/-- C7 (amended): an empty file, or any line after the first with a field
count other than four or a non-numeric field, makes `load_log` fail with
a typed error — no series is returned. (A malformation confined to the
first line escapes this, because the first line is skipped unread.) -/
theorem load_log_rejects_malformed_tail (lines : List Row)
    (h : lines.drop 1 = [] ∨ (lines.drop 1).any badRow = true) :
    ∃ e, load_log lines = .error e := by
  cases hl : load_log lines with
  | error e => exact ⟨e, rfl⟩
  | ok s =>
    exfalso
    obtain ⟨t, hpt, hc, h2, h4, -⟩ := load_log_ok_facts hl
    rcases h with h1 | h1
    · rw [h1] at hpt
      simp only [parseTable, Option.some.injEq] at hpt
      obtain rfl : ([] : List (List ℚ)) = t := hpt
      simp at h2
    · obtain ⟨r, hr, hbad⟩ := List.any_eq_true.mp h1
      obtain ⟨v, hv, hvt⟩ := parseTable_mem hpt hr
      simp only [badRow, Bool.or_eq_true, decide_eq_true_eq,
        List.any_eq_true, Bool.not_eq_true'] at hbad
      rcases hbad with hbad | ⟨c, hcr, hcn⟩
      · exact hbad (by rw [← parseRow_length hv]; exact h4 v hvt)
      · have hnum := parseRow_isNum hv c hcr
        rw [hnum] at hcn
        cases hcn

/-- C7 counterexample: a headerless file whose (malformed, three-field)
first line is followed by two well-formed records is *accepted*: the
malformed line is silently skipped and a series is returned, so not every
wrong-field-count input fails. -/
theorem load_log_accepts_malformed_first_line :
    (∃ r ∈ wrongCountFile, r.length ≠ 4) ∧
    load_log wrongCountFile = .ok ⟨[0, 1], [3, 3], [0, 1], [1, 0]⟩ :=
  ⟨⟨[.num 1, .num 2, .num 3], by decide, by decide⟩, rfl⟩

/-- C7 witness: the amended statement at a file with a non-numeric field
in its third line. -/
theorem load_log_rejects_malformed_tail_witness :
    (badFieldFile.drop 1 = [] ∨ (badFieldFile.drop 1).any badRow = true) ∧
    ∃ e, load_log badFieldFile = .error e :=
  ⟨Or.inr (by decide),
    load_log_rejects_malformed_tail badFieldFile (Or.inr (by decide))⟩

/-- C8: the pipeline short-circuits at the first hard failure: a failed
build yields the build error with no artifact execution, no log load and
no plot; a failed execution yields the execution error with no log load
and no plot; a failed parse yields the log error with no plot. -/
theorem main_workflow_short_circuits (w : World) :
    (w.buildExit ≠ 0 →
      (main_workflow w).2 =
        some (PipeError.buildError w.buildExit w.buildErr) ∧
      (main_workflow w).1.artifactRuns = w.artifactRuns ∧
      (main_workflow w).1.loadCalls = w.loadCalls ∧
      (main_workflow w).1.plotCalls = w.plotCalls) ∧
    (w.buildExit = 0 → w.simExit ≠ 0 →
      (main_workflow w).2 = some (PipeError.executionError w.simErr) ∧
      (main_workflow w).1.loadCalls = w.loadCalls ∧
      (main_workflow w).1.plotCalls = w.plotCalls) ∧
    (∀ err : LogError, w.buildExit = 0 → w.simExit = 0 →
      load_log w.simOut = .error err →
      (main_workflow w).2 = some (PipeError.logError err) ∧
      (main_workflow w).1.plotCalls = w.plotCalls) := by
  refine ⟨fun hb => ?_, fun hb hs => ?_, fun err hb hs hl => ?_⟩
  · simp [main_workflow, build_firmware, hb]
  · simp [main_workflow, build_firmware, run_firmware_and_capture_log,
      hb, hs]
  · simp [main_workflow, build_firmware, run_firmware_and_capture_log,
      load_log_stage, hb, hs, hl]

/-- C8 witness: the short-circuit theorem's build-failure case at a
concrete world whose toolchain exits 1. -/
theorem main_workflow_short_circuits_witness :
    worldBuildFails.buildExit ≠ 0 ∧
    ((main_workflow worldBuildFails).2 =
      some (PipeError.buildError worldBuildFails.buildExit
        worldBuildFails.buildErr) ∧
     (main_workflow worldBuildFails).1.artifactRuns =
       worldBuildFails.artifactRuns ∧
     (main_workflow worldBuildFails).1.loadCalls =
       worldBuildFails.loadCalls ∧
     (main_workflow worldBuildFails).1.plotCalls =
       worldBuildFails.plotCalls) :=
  ⟨by decide, (main_workflow_short_circuits worldBuildFails).1 (by decide)⟩

/-- C9: when the artifact exists but exits non-zero, the runner fails
with the execution error carrying the captured stderr text, and the log
file holds exactly what the artifact wrote — it is not deleted. -/
theorem runner_nonzero_exit_keeps_log (w : World)
    (hex : w.artifactExists = true) (hrc : w.simExit ≠ 0) :
    run_firmware_and_capture_log w =
      ({ w with logFile := some w.simOut,
                artifactRuns := w.artifactRuns + 1 },
       some (PipeError.executionError w.simErr)) := by
  simp [run_firmware_and_capture_log, hex, hrc]

/-- C9 witness: the theorem at a concrete world whose simulation exits 2
after writing one record. -/
theorem runner_nonzero_exit_keeps_log_witness :
    worldSimFails.artifactExists = true ∧ worldSimFails.simExit ≠ 0 ∧
    run_firmware_and_capture_log worldSimFails =
      ({ worldSimFails with logFile := some worldSimFails.simOut,
                            artifactRuns := worldSimFails.artifactRuns + 1 },
       some (PipeError.executionError worldSimFails.simErr)) :=
  ⟨rfl, by decide,
    runner_nonzero_exit_keeps_log worldSimFails rfl (by decide)⟩

/-- C10: a successful `load_log` returns four columns of equal length —
the number of parsed data lines — and the `i`-th entry of each column is
the corresponding field of the `i`-th data line, so row order is
preserved. -/
theorem load_log_columns_aligned (lines : List Row) (s : LogSeries)
    (h : load_log lines = .ok s) :
    s.step.length = (lines.drop 1).length ∧
    s.setpoint.length = s.step.length ∧
    s.speed.length = s.step.length ∧
    s.control.length = s.step.length ∧
    ∀ (i : Nat) (r : Row), (lines.drop 1)[i]? = some r →
      ∃ q0 q1 q2 q3, parseRow r = some [q0, q1, q2, q3] ∧
        s.step[i]? = some q0 ∧ s.setpoint[i]? = some q1 ∧
        s.speed[i]? = some q2 ∧ s.control[i]? = some q3 := by
  obtain ⟨t, hpt, hc, h2, h4, rfl⟩ := load_log_ok_facts h
  have hlen := parseTable_length hpt
  have hget := parseTable_getElem? hpt
  refine ⟨by simp [splitColumns, hlen], by simp [splitColumns],
    by simp [splitColumns], by simp [splitColumns], ?_⟩
  intro i r hr
  have hi : i < t.length := by
    rw [hlen]
    obtain ⟨hlt, -⟩ := List.getElem?_eq_some_iff.mp hr
    exact hlt
  have hv : t[i]? = some t[i] := List.getElem?_eq_getElem hi
  have hvm : t[i] ∈ t := List.getElem?_mem hv
  obtain ⟨a, b, c, d, habcd⟩ := list_len4 (h4 _ hvm)
  have hpr : parseRow r = some [a, b, c, d] := by
    have hgi := hget i
    rw [hv, hr, habcd] at hgi
    simpa using hgi.symm
  refine ⟨a, b, c, d, hpr, ?_, ?_, ?_, ?_⟩ <;>
    simp [splitColumns, List.getElem?_map, hv, habcd, List.getD]

/-- C10 witness: the column-alignment theorem at a concrete two-record
file. -/
theorem load_log_columns_aligned_witness :
    twoRecordSeries.step.length = (twoRecordFile.drop 1).length ∧
    twoRecordSeries.setpoint.length = twoRecordSeries.step.length ∧
    twoRecordSeries.speed.length = twoRecordSeries.step.length ∧
    twoRecordSeries.control.length = twoRecordSeries.step.length ∧
    ∀ (i : Nat) (r : Row), (twoRecordFile.drop 1)[i]? = some r →
      ∃ q0 q1 q2 q3, parseRow r = some [q0, q1, q2, q3] ∧
        twoRecordSeries.step[i]? = some q0 ∧
        twoRecordSeries.setpoint[i]? = some q1 ∧
        twoRecordSeries.speed[i]? = some q2 ∧
        twoRecordSeries.control[i]? = some q3 :=
  load_log_columns_aligned twoRecordFile twoRecordSeries (by rfl)
